import Mathlib

set_option maxRecDepth 8192

/-!
Verification development for the handler-registration and routing engine of
the hammett repository.  The definitions below are a shallow embedding of
`src/hammett/core/application.py` (the registration engine) and of the legacy
permission loop in `src/hammett/core/__init__.py`.  Collaborating modules that
are referenced from those files but are not part of the source tree
(`hammett.core.handlers.calc_checksum`, `hammett.core.permissions
.apply_permission_to`, `hammett.core.constants.PAYLOAD_DELIMITER`) are
modelled from the specification, as marked in their doc comments.
-/

/-- The recognized handler types (the members of `hammett.types.HandlerType`
referenced from `src/hammett/core/application.py`, lines 161-166). -/
inductive HandlerType where
  | BUTTON_HANDLER
  | COMMAND_HANDLER
  | INPUT_HANDLER
  | TYPING_HANDLER
  deriving DecidableEq, Repr

/-- The value of `getattr(possible_handler, 'handler_type', '')`
(`src/hammett/core/application.py`, line 169): the attribute may be absent
(Python default, the empty string), one of the recognized `HandlerType`
members, or any other, unrecognized, value. -/
inductive HandlerTypeAttr where
  | unset
  | known (t : HandlerType)
  | other (tag : String)
  deriving DecidableEq, Repr

/-- A telegram message filter as built by the registration engine.
`COMMAND` is `filters.COMMAND` (the message carries a bot_command entity at
offset 0), `TEXT` is `filters.TEXT` (non-empty message text), `fand` and
`fnot` are the `&` and `~` combinators, `regexCaret lit` is
`filters.Regex('^' + lit)` for a metacharacter-free literal `lit`, and
`custom` stands for an externally supplied predicate (the `filters` attribute
of an INPUT handler), whose matching behavior is outside this model. -/
inductive MsgFilter where
  | COMMAND
  | TEXT
  | fand (a b : MsgFilter)
  | fnot (a : MsgFilter)
  | regexCaret (lit : String)
  | custom (tag : String)
  deriving DecidableEq, Repr

/-- A raw screen member (a bound method of a screen instance) together with
the attributes the registration engine reads off it: its fully-qualified name
(module plus qualified name, the input of the checksum), its `handler_type`
tag, its `command_name`, its `filters` predicate and its
`permissions_ignored` set of policy identifiers (an empty list models the
absent, falsy, attribute). -/
structure RawHandler where
  qualname : String
  handler_type : HandlerTypeAttr
  command_name : String
  filters : MsgFilter
  permissions_ignored : List String
  deriving DecidableEq, Repr

/-- A handler callable: either a raw screen member or the result of wrapping a
handler with a permission policy's check, `policy.check_permission(inner)`,
where the policy is identified by its `CLASS_UUID`. -/
inductive Handler where
  | raw (member : RawHandler)
  | wrapped (class_uuid : String) (inner : Handler)
  deriving DecidableEq, Repr

/-- A dispatch entry as registered into the state table: either a
`CallbackQueryHandler(callback, pattern=...)` or a
`MessageHandler(filter, callback)`. -/
inductive HandlerObject where
  | callbackQuery (callback : Handler) (pattern : String)
  | message (filter : MsgFilter) (callback : Handler)
  deriving DecidableEq, Repr

/-- The callable a dispatch entry invokes when it fires. -/
def registeredCallback : HandlerObject → Handler
  | HandlerObject.callbackQuery cb _ => cb
  | HandlerObject.message _ cb => cb

/-- Modelled from the spec: `apply_permission_to` from
`hammett.core.permissions`, which is imported by
`src/hammett/core/application.py` (line 17) but is not under `src/`.  Per the
spec it folds the configured, ordered list of policies over the handler: for
each policy, unless the handler's `permissions_ignored` set contains that
policy's identity, it replaces the handler with
`policy.check_permission(handler)`.  The configured policies
(`settings.PERMISSIONS`) are given by their `CLASS_UUID`s. -/
def apply_permission_to (permissions : List String) (handler : RawHandler) : Handler :=
  permissions.foldl
    (fun acc class_uuid =>
      if class_uuid ∈ handler.permissions_ignored then acc
      else Handler.wrapped class_uuid acc)
    (Handler.raw handler)

/-- The fixed length, in hex digits, of a handler checksum. -/
def CHECKSUM_LEN : Nat := 32

/-- The hex digit character for a value below 16. -/
def hexDigitChar (n : Nat) : Char :=
  if n < 10 then Char.ofNat (48 + n) else Char.ofNat (87 + n)

/-- The low `w` hex digits of `n`, least significant first. -/
def natToHexRev : Nat → Nat → List Char
  | 0, _ => []
  | w + 1, n => hexDigitChar (n % 16) :: natToHexRev w (n / 16)

/-- A deterministic hash of a character list into `[0, 2 ^ 128)`. -/
def hashChars : List Char → Nat → Nat
  | [], acc => acc
  | c :: cs, acc => hashChars cs ((acc * 131 + c.toNat) % 2 ^ 128)

/-- Modelled from the spec: `calc_checksum` from `hammett.core.handlers`,
which is imported by `src/hammett/core/application.py` (line 16) but is not
under `src/`.  Per the spec it is a deterministic, fixed-length token derived
from the handler's fully-qualified identity (a cryptographic hash truncated
to a fixed length); it is modelled as a deterministic hash of the qualified
name rendered as `CHECKSUM_LEN` hex digits. -/
def calc_checksum (handler : RawHandler) : String :=
  String.mk (natToHexRev CHECKSUM_LEN (hashChars handler.qualname.data 0))

/-- Modelled from the spec: `PAYLOAD_DELIMITER` from
`hammett.core.constants`, which is imported by `src/hammett/core/__init__.py`
(line 12) but is not under `src/`: the delimiter separating the identifier
from the free-form args in a callback payload.  Its concrete value is
immaterial to the theorems below. -/
def PAYLOAD_DELIMITER : String := ","

/-- Embeds `Application._get_handler_object`
(`src/hammett/core/application.py`, lines 89-123).  Returns the dispatch
entry for a classified member, or `none` for `raise UnknownHandlerType`.  At
the call site `handler` and `possible_handler` are the same object, so the
embedding takes the member once; `permissions` models the configured policy
list consumed by `apply_permission_to`. -/
def _get_handler_object (handler : RawHandler) (handler_type : HandlerTypeAttr)
    (permissions : List String) : Option HandlerObject :=
  if handler_type = HandlerTypeAttr.known HandlerType.BUTTON_HANDLER ∨
      handler_type = HandlerTypeAttr.unset then
    some (HandlerObject.callbackQuery (apply_permission_to permissions handler)
      (calc_checksum handler))
  else if handler_type = HandlerTypeAttr.known HandlerType.COMMAND_HANDLER then
    some (HandlerObject.message
      (MsgFilter.fand MsgFilter.COMMAND (MsgFilter.regexCaret ("/" ++ handler.command_name)))
      (Handler.raw handler))
  else if handler_type = HandlerTypeAttr.known HandlerType.INPUT_HANDLER then
    some (HandlerObject.message handler.filters (Handler.raw handler))
  else if handler_type = HandlerTypeAttr.known HandlerType.TYPING_HANDLER then
    some (HandlerObject.message
      (MsgFilter.fand MsgFilter.TEXT (MsgFilter.fnot MsgFilter.COMMAND))
      (Handler.raw handler))
  else
    none

/-- A conversation state, an opaque comparable identifier. -/
abbrev State := Nat

/-- The runtime state table `self._native_states`: a Python dict from state to
the ordered list of registered dispatch entries, with unique keys in
insertion order. -/
abbrev StateTable := List (State × List HandlerObject)

/-- Dictionary lookup `self._native_states[state]` (`none` models a
`KeyError`). -/
def lookupState (t : StateTable) (s : State) : Option (List HandlerObject) :=
  match t with
  | [] => none
  | kv :: rest => if kv.1 = s then some kv.2 else lookupState rest s

/-- Embeds `Application._set_default_value_to_native_states`
(`src/hammett/core/application.py`, lines 191-197): reading
`self._native_states[state]` guarded by `except KeyError:
self._native_states[state] = []` inserts an empty list for a missing key and
leaves the table untouched when the key is present. -/
def set_default_value_to_native_states (t : StateTable) (s : State) : StateTable :=
  match lookupState t s with
  | some _ => t
  | none => t ++ [(s, [])]

/-- The in-place `self._native_states[k].append(handler_object)`: appends to
the list bound to the (unique) key `k`. -/
def appendToState (t : StateTable) (s : State) (h : HandlerObject) : StateTable :=
  match t with
  | [] => []
  | kv :: rest =>
    if kv.1 = s then (kv.1, kv.2 ++ [h]) :: rest
    else kv :: appendToState rest s h

/-- A screen member as enumerated by `for name in dir(instance)`: the
attribute name together with the bound method. -/
structure Member where
  name : String
  handler : RawHandler
  deriving DecidableEq, Repr

/-- A screen instance: its members in `dir(instance)` enumeration order and
its `routes` attribute, a list of `(route_states, target)` pairs. -/
structure Screen where
  members : List Member
  routes : List (List State × String)
  deriving DecidableEq, Repr

/-- Embeds `self._route_handlers = ('sgoto', 'sjump')`
(`src/hammett/core/application.py`, line 60). -/
def route_handlers : List String := ["sgoto", "sjump"]

/-- Embeds `self._builtin_handlers = ('goto', 'jump', 'start',
*self._route_handlers)` (`src/hammett/core/application.py`, line 61). -/
def builtin_handlers : List String := ["goto", "jump", "start"] ++ route_handlers

/-- Embeds the test `possible_handler_type in acceptable_handler_types`
(`src/hammett/core/application.py`, lines 161-172): exactly the four
recognized `HandlerType` members are acceptable; the empty string (unset) and
unrecognized tags are not. -/
def isAcceptable : HandlerTypeAttr → Bool
  | HandlerTypeAttr.known _ => true
  | _ => false

/-- The mutable registration state: the state table plus the diagnostic log
fed by `log_unregistered_handler` (which only records the member it is given
and has no behavioral effect). -/
structure RegState where
  native_states : StateTable
  unregistered_log : List RawHandler
  deriving DecidableEq, Repr

/-- Decidable equality of `Except` values, needed to evaluate the
registration pass on concrete inputs. -/
instance {ε α : Type} [DecidableEq ε] [DecidableEq α] : DecidableEq (Except ε α) := by
  intro a b
  cases a with
  | error e =>
    cases b with
    | error f => exact decidable_of_iff (e = f) (by simp)
    | ok y => exact Decidable.isFalse (by simp)
  | ok x =>
    cases b with
    | error f => exact Decidable.isFalse (by simp)
    | ok y => exact decidable_of_iff (x = y) (by simp)

/-- A Python for-loop over `l` threading state `s`, where the body may raise:
`Except.error` carries the state as it stood at the moment of the raise,
since all mutation is in place and is not rolled back by the exception. -/
def runList {σ ε α : Type} (f : σ → α → Except ε σ) : σ → List α → Except ε σ
  | s, [] => Except.ok s
  | s, a :: l =>
    match f s a with
    | Except.error e => Except.error e
    | Except.ok s2 => runList f s2 l

/-- The inner loop `for route_state in route_states` of `_register_handlers`
(`src/hammett/core/application.py`, lines 185-187): ensure the state has an
entry, then append the handler object to it. -/
def fanStates (hobj : HandlerObject) : StateTable → List State → StateTable
  | t, [] => t
  | t, s :: ss =>
    fanStates hobj (appendToState (set_default_value_to_native_states t s) s hobj) ss

/-- The loop `for route in instance.routes` of `_register_handlers`
(`src/hammett/core/application.py`, lines 183-187). -/
def routeFanOut (hobj : HandlerObject) : StateTable → List (List State × String) → StateTable
  | t, [] => t
  | t, r :: rest => routeFanOut hobj (fanStates hobj t r.1) rest

/-- One iteration of `for name in dir(instance)` inside `_register_handlers`
(`src/hammett/core/application.py`, lines 160-189): a member is classified
when its name is a builtin handler name or its `handler_type` tag is
acceptable; a classified member is built into a handler object (a `none`
result is `raise UnknownHandlerType`, carrying the table as mutated so far);
a route handler of a screen with non-empty `routes` fans out over the route
states, any other classified member is appended to the declaring state; an
unclassified member is reported to `log_unregistered_handler` and skipped. -/
def processMember (permissions : List String) (screen : Screen) (state : State)
    (rs : RegState) (m : Member) : Except RegState RegState :=
  if m.name ∈ builtin_handlers ∨ isAcceptable m.handler.handler_type = true then
    match _get_handler_object m.handler m.handler.handler_type permissions with
    | none => Except.error rs
    | some hobj =>
      if m.name ∈ route_handlers ∧ screen.routes ≠ [] then
        Except.ok { rs with native_states := routeFanOut hobj rs.native_states screen.routes }
      else
        Except.ok { rs with native_states := appendToState rs.native_states state hobj }
  else
    Except.ok { rs with unregistered_log := rs.unregistered_log ++ [m.handler] }

/-- The body of `for screen in screens` in `_register_handlers`
(`src/hammett/core/application.py`, lines 158-189): instantiate the screen
and run the member loop over `dir(instance)`. -/
def processScreen (permissions : List String) (state : State)
    (rs : RegState) (screen : Screen) : Except RegState RegState :=
  runList (processMember permissions screen state) rs screen.members

/-- Embeds `Application._register_handlers`
(`src/hammett/core/application.py`, lines 155-189) for one
`(state, screens)` pair: ensure the declaring state has an entry, then run
the screen loop. -/
def _register_handlers (permissions : List String) (rs : RegState) (state : State)
    (screens : List Screen) : Except RegState RegState :=
  runList (processScreen permissions state)
    { rs with native_states := set_default_value_to_native_states rs.native_states state }
    screens

/-- Embeds the registration pass `for state in self._states.items():
self._register_handlers(*state)` (`src/hammett/core/application.py`, lines
73-75), starting from the initial `native_states` table (line 64) and an
empty diagnostic log. -/
def registerStates (permissions : List String) (native_states : StateTable)
    (states : List (State × List Screen)) : Except RegState RegState :=
  runList (fun rs p => _register_handlers permissions rs p.1 p.2)
    { native_states := native_states, unregistered_log := [] } states

/-- Embeds Python `re.match(pattern, data)` for the literal,
metacharacter-free patterns this code registers (a hex checksum): such a
match succeeds exactly when the pattern is a prefix of the data. -/
def reMatchLit (pattern data : String) : Bool :=
  pattern.data.isPrefixOf data.data

/-- Whether a registered dispatch entry fires on an incoming callback payload:
`CallbackQueryHandler.check_update` applies `re.match(pattern, data)` to the
callback data; message handlers never fire on callback updates. -/
def firesOnCallback (h : HandlerObject) (data : String) : Bool :=
  match h with
  | HandlerObject.callbackQuery _ pat => reMatchLit pat data
  | HandlerObject.message _ _ => false

/-- An incoming text message: its text and whether it is a command message
(it carries a bot_command entity at offset 0). -/
structure Message where
  text : String
  is_command : Bool
  deriving DecidableEq, Repr

/-- The semantics of the telegram filters built by the registration engine:
`filters.COMMAND` accepts command messages, `filters.TEXT` accepts messages
with non-empty text, `&` and `~` are conjunction and negation, and
`filters.Regex` with a pattern of the form caret-plus-literal accepts exactly
when the literal is a prefix of the text (Python `re.search` with a leading
anchor).  A `custom` filter is an opaque external predicate; no claim depends
on its behavior, and it is modelled as never matching. -/
def MsgFilter.accepts : MsgFilter → Message → Bool
  | MsgFilter.COMMAND, m => m.is_command
  | MsgFilter.TEXT, m => !m.text.isEmpty
  | MsgFilter.fand a b, m => a.accepts m && b.accepts m
  | MsgFilter.fnot a, m => !a.accepts m
  | MsgFilter.regexCaret lit, m => lit.data.isPrefixOf m.text.data
  | MsgFilter.custom _, _ => false

/-- Embeds the permission loop of the legacy `_register_handlers`
(`src/hammett/core/__init__.py`, lines 100-109) for a HANDLER-type button
(for which `button.source` is the registered source): the loop iterates
`settings.PERMISSIONS` in order; a policy whose `CLASS_UUID` is in the
source's truthy `permissions_ignored` is skipped (`continue`); every other
policy stores `permission_instance.check_permission(source)` — of the raw
`source`, not of the previously wrapped result — into
`button.source_wrapped`, which starts out empty. -/
def legacy_source_wrapped (permissions : List String) (source : RawHandler) : Option Handler :=
  permissions.foldl
    (fun wrapped class_uuid =>
      if source.permissions_ignored ≠ [] ∧ class_uuid ∈ source.permissions_ignored then
        wrapped
      else
        some (Handler.wrapped class_uuid (Handler.raw source)))
    none

/-- Embeds `button.source_wrapped or source`
(`src/hammett/core/__init__.py`, line 112): the callable actually registered
for the button. -/
def legacy_registered (permissions : List String) (source : RawHandler) : Handler :=
  (legacy_source_wrapped permissions source).getD (Handler.raw source)

/-- The last configured policy that the legacy loop does not skip for this
source, if any: the one whose wrap survives. -/
def lastApplicable (source : RawHandler) : List String → Option String
  | [] => none
  | u :: rest =>
    match lastApplicable source rest with
    | some v => some v
    | none =>
      if source.permissions_ignored ≠ [] ∧ u ∈ source.permissions_ignored then none
      else some u

/-- All states mentioned in a `routes` list. -/
def routeStatesOf : List (List State × String) → List State
  | [] => []
  | r :: rest => r.1 ++ routeStatesOf rest

/-! ### Generic lemmas about the loop combinator -/

theorem runList_rel {σ ε α : Type} (R : σ → σ → Prop)
    (hrefl : ∀ s, R s s) (htrans : ∀ a b c, R a b → R b c → R a c)
    (f : σ → α → Except ε σ)
    (hf : ∀ s a s2, f s a = Except.ok s2 → R s s2) :
    ∀ (l : List α) (s s2 : σ), runList f s l = Except.ok s2 → R s s2 := by
  intro l
  induction l with
  | nil =>
    intro s s2 h
    simp only [runList, Except.ok.injEq] at h
    subst h
    exact hrefl s
  | cons a l ih =>
    intro s s2 h
    simp only [runList] at h
    cases hfa : f s a with
    | error e => rw [hfa] at h; exact absurd h (by simp)
    | ok s1 =>
      rw [hfa] at h
      exact htrans _ _ _ (hf s a s1 hfa) (ih s1 s2 h)

theorem runList_append {σ ε α : Type} (f : σ → α → Except ε σ) (l1 l2 : List α) (s : σ) :
    runList f s (l1 ++ l2) =
      match runList f s l1 with
      | Except.error e => Except.error e
      | Except.ok s2 => runList f s2 l2 := by
  induction l1 generalizing s with
  | nil => simp [runList]
  | cons a l ih =>
    simp only [List.cons_append, runList]
    cases hfa : f s a with
    | error e => rfl
    | ok s2 => exact ih s2

theorem runList_ok_split {σ ε α : Type} (f : σ → α → Except ε σ) (l1 l2 : List α)
    (s s2 : σ) (h : runList f s (l1 ++ l2) = Except.ok s2) :
    ∃ sm, runList f s l1 = Except.ok sm ∧ runList f sm l2 = Except.ok s2 := by
  rw [runList_append] at h
  cases h1 : runList f s l1 with
  | error e => rw [h1] at h; exact absurd h (by simp)
  | ok sm => rw [h1] at h; exact ⟨sm, rfl, h⟩

theorem runList_ok_cons {σ ε α : Type} (f : σ → α → Except ε σ) (a : α) (l : List α)
    (s s2 : σ) (h : runList f s (a :: l) = Except.ok s2) :
    ∃ s1, f s a = Except.ok s1 ∧ runList f s1 l = Except.ok s2 := by
  simp only [runList] at h
  cases hfa : f s a with
  | error e => rw [hfa] at h; exact absurd h (by simp)
  | ok s1 => rw [hfa] at h; exact ⟨s1, rfl, h⟩

theorem runList_ok_mem {σ ε α : Type} (R : σ → σ → Prop)
    (hrefl : ∀ s, R s s) (htrans : ∀ a b c, R a b → R b c → R a c)
    (f : σ → α → Except ε σ) (hf : ∀ s a s2, f s a = Except.ok s2 → R s s2)
    (l : List α) (a : α) (ha : a ∈ l) (s s2 : σ)
    (h : runList f s l = Except.ok s2) :
    ∃ s0 s1, R s s0 ∧ f s0 a = Except.ok s1 ∧ R s1 s2 := by
  obtain ⟨l1, l2, rfl⟩ := List.append_of_mem ha
  obtain ⟨sm, h1, h2⟩ := runList_ok_split f l1 (a :: l2) s s2 h
  obtain ⟨s1, hstep, h3⟩ := runList_ok_cons f a l2 sm s2 h2
  exact ⟨sm, s1, runList_rel R hrefl htrans f hf l1 s sm h1, hstep,
    runList_rel R hrefl htrans f hf l2 s1 s2 h3⟩

theorem runList_ok_transfer {σ ε α : Type} (f : σ → α → Except ε σ)
    (hf : ∀ s a s2, f s a = Except.ok s2 → ∀ t, ∃ t2, f t a = Except.ok t2) :
    ∀ (l : List α) (s s2 : σ), runList f s l = Except.ok s2 →
      ∀ t, ∃ t2, runList f t l = Except.ok t2 := by
  intro l
  induction l with
  | nil => intro s s2 _ t; exact ⟨t, rfl⟩
  | cons a l ih =>
    intro s s2 h t
    obtain ⟨s1, hstep, hrest⟩ := runList_ok_cons f a l s s2 h
    obtain ⟨t1, ht1⟩ := hf s a s1 hstep t
    obtain ⟨t2, ht2⟩ := ih s1 s2 hrest t1
    refine ⟨t2, ?_⟩
    simp only [runList]
    rw [ht1]
    exact ht2

/-! ### Lemmas about the state table operations -/

theorem lookupState_append_of_some (t u : StateTable) (s : State)
    (l : List HandlerObject) (h : lookupState t s = some l) :
    lookupState (t ++ u) s = some l := by
  induction t with
  | nil => simp [lookupState] at h
  | cons kv rest ih =>
    simp only [lookupState] at h
    simp only [List.cons_append, lookupState]
    by_cases hk : kv.1 = s
    · rw [if_pos hk] at h; rw [if_pos hk]; exact h
    · rw [if_neg hk] at h; rw [if_neg hk]; exact ih h

theorem lookupState_append_of_none (t u : StateTable) (s : State)
    (h : lookupState t s = none) :
    lookupState (t ++ u) s = lookupState u s := by
  induction t with
  | nil => simp
  | cons kv rest ih =>
    simp only [lookupState] at h
    simp only [List.cons_append, lookupState]
    by_cases hk : kv.1 = s
    · rw [if_pos hk] at h; exact absurd h (by simp)
    · rw [if_neg hk] at h; rw [if_neg hk]; exact ih h

theorem set_default_of_some (t : StateTable) (s : State) (l : List HandlerObject)
    (h : lookupState t s = some l) :
    set_default_value_to_native_states t s = t := by
  unfold set_default_value_to_native_states
  rw [h]

theorem lookupState_set_default_self (t : StateTable) (s : State) :
    ∃ l, lookupState (set_default_value_to_native_states t s) s = some l := by
  unfold set_default_value_to_native_states
  cases h : lookupState t s with
  | some l => exact ⟨l, h⟩
  | none =>
    refine ⟨[], ?_⟩
    rw [lookupState_append_of_none t [(s, [])] s h]
    simp [lookupState]

theorem lookupState_set_default_of_some (t : StateTable) (s s2 : State)
    (l : List HandlerObject) (h : lookupState t s2 = some l) :
    lookupState (set_default_value_to_native_states t s) s2 = some l := by
  unfold set_default_value_to_native_states
  cases hs : lookupState t s with
  | some l2 => exact h
  | none => exact lookupState_append_of_some t [(s, [])] s2 l h

theorem lookupState_set_default_ne (t : StateTable) (s s2 : State) (hne : s2 ≠ s) :
    lookupState (set_default_value_to_native_states t s) s2 = lookupState t s2 := by
  unfold set_default_value_to_native_states
  cases hs : lookupState t s with
  | some l2 => rfl
  | none =>
    cases h2 : lookupState t s2 with
    | some l => exact lookupState_append_of_some t [(s, [])] s2 l h2
    | none =>
      rw [lookupState_append_of_none t [(s, [])] s2 h2]
      have : ¬s = s2 := fun h => hne h.symm
      simp [lookupState, this]

theorem lookupState_appendToState_self (t : StateTable) (s : State)
    (h : HandlerObject) (l : List HandlerObject) (hl : lookupState t s = some l) :
    lookupState (appendToState t s h) s = some (l ++ [h]) := by
  induction t with
  | nil => simp [lookupState] at hl
  | cons kv rest ih =>
    simp only [lookupState] at hl
    simp only [appendToState]
    by_cases hk : kv.1 = s
    · rw [if_pos hk] at hl
      rw [if_pos hk]
      simp only [lookupState]
      rw [if_pos hk]
      simp only [Option.some.injEq] at hl
      rw [hl]
    · rw [if_neg hk] at hl
      rw [if_neg hk]
      simp only [lookupState]
      rw [if_neg hk]
      exact ih hl

theorem lookupState_appendToState_ne (t : StateTable) (s : State)
    (h : HandlerObject) (s2 : State) (hne : s2 ≠ s) :
    lookupState (appendToState t s h) s2 = lookupState t s2 := by
  induction t with
  | nil => simp [appendToState]
  | cons kv rest ih =>
    simp only [appendToState, lookupState]
    by_cases hk : kv.1 = s
    · rw [if_pos hk]
      simp only [lookupState]
      have : ¬kv.1 = s2 := by rw [hk]; exact fun h2 => hne h2.symm
      rw [if_neg this, if_neg this]
    · rw [if_neg hk]
      simp only [lookupState]
      by_cases hk2 : kv.1 = s2
      · rw [if_pos hk2, if_pos hk2]
      · rw [if_neg hk2, if_neg hk2]
        exact ih

/-- Growth order on state tables: every binding present in the first table is
still present in the second, extended only at the end of its list. -/
def tableGrows (t t2 : StateTable) : Prop :=
  ∀ s l, lookupState t s = some l → ∃ l2, lookupState t2 s = some (l ++ l2)

theorem tableGrows_refl (t : StateTable) : tableGrows t t :=
  fun s l h => ⟨[], by rw [h, List.append_nil]⟩

theorem tableGrows_trans {a b c : StateTable}
    (hab : tableGrows a b) (hbc : tableGrows b c) : tableGrows a c := by
  intro s l h
  obtain ⟨l2, h2⟩ := hab s l h
  obtain ⟨l3, h3⟩ := hbc s (l ++ l2) h2
  exact ⟨l2 ++ l3, by rw [h3, List.append_assoc]⟩

theorem tableGrows_appendToState (t : StateTable) (s : State) (h : HandlerObject) :
    tableGrows t (appendToState t s h) := by
  intro s2 l hl
  by_cases he : s2 = s
  · subst he
    exact ⟨[h], lookupState_appendToState_self t s2 h l hl⟩
  · exact ⟨[], by rw [lookupState_appendToState_ne t s h s2 he, hl, List.append_nil]⟩

theorem tableGrows_set_default (t : StateTable) (s : State) :
    tableGrows t (set_default_value_to_native_states t s) :=
  fun s2 l hl =>
    ⟨[], by rw [lookupState_set_default_of_some t s s2 l hl, List.append_nil]⟩

theorem tableGrows_fanStates (hobj : HandlerObject) :
    ∀ (ss : List State) (t : StateTable), tableGrows t (fanStates hobj t ss) := by
  intro ss
  induction ss with
  | nil => intro t; exact tableGrows_refl t
  | cons s ss ih =>
    intro t
    simp only [fanStates]
    refine tableGrows_trans ?_ (ih _)
    exact tableGrows_trans (tableGrows_set_default t s)
      (tableGrows_appendToState _ s hobj)

theorem tableGrows_routeFanOut (hobj : HandlerObject) :
    ∀ (routes : List (List State × String)) (t : StateTable),
      tableGrows t (routeFanOut hobj t routes) := by
  intro routes
  induction routes with
  | nil => intro t; exact tableGrows_refl t
  | cons r rest ih =>
    intro t
    simp only [routeFanOut]
    exact tableGrows_trans (tableGrows_fanStates hobj r.1 t) (ih _)

theorem fanStates_mem (hobj : HandlerObject) :
    ∀ (ss : List State) (t : StateTable) (s : State), s ∈ ss →
      ∃ l, lookupState (fanStates hobj t ss) s = some l ∧ hobj ∈ l := by
  intro ss
  induction ss with
  | nil => intro t s hs; exact absurd hs (List.not_mem_nil s)
  | cons s0 ss ih =>
    intro t s hs
    rcases List.mem_cons.mp hs with rfl | hs2
    · obtain ⟨l0, hl0⟩ := lookupState_set_default_self t s
      have happ := lookupState_appendToState_self _ s hobj l0 hl0
      obtain ⟨l2, hl2⟩ :=
        tableGrows_fanStates hobj ss
          (appendToState (set_default_value_to_native_states t s) s hobj)
          s (l0 ++ [hobj]) happ
      refine ⟨l0 ++ [hobj] ++ l2, ?_, by simp⟩
      simpa only [fanStates] using hl2
    · simp only [fanStates]
      exact ih _ s hs2

theorem routeFanOut_mem (hobj : HandlerObject) :
    ∀ (routes : List (List State × String)) (t : StateTable)
      (r : List State × String), r ∈ routes → ∀ s ∈ r.1,
      ∃ l, lookupState (routeFanOut hobj t routes) s = some l ∧ hobj ∈ l := by
  intro routes
  induction routes with
  | nil => intro t r hr; exact absurd hr (List.not_mem_nil r)
  | cons r0 rest ih =>
    intro t r hr s hs
    rcases List.mem_cons.mp hr with rfl | hr2
    · obtain ⟨l, hl, hm⟩ := fanStates_mem hobj r.1 t s hs
      obtain ⟨l2, hl2⟩ := tableGrows_routeFanOut hobj rest (fanStates hobj t r.1) s l hl
      refine ⟨l ++ l2, ?_, by simp [hm]⟩
      simpa only [routeFanOut] using hl2
    · simp only [routeFanOut]
      exact ih _ r hr2 s hs

theorem lookupState_fanStates_not_mem (hobj : HandlerObject) :
    ∀ (ss : List State) (t : StateTable) (s : State), s ∉ ss →
      lookupState (fanStates hobj t ss) s = lookupState t s := by
  intro ss
  induction ss with
  | nil => intro t s _; rfl
  | cons s0 ss ih =>
    intro t s hs
    have hne : s ≠ s0 := fun h => hs (h ▸ List.mem_cons_self s0 ss)
    have hs2 : s ∉ ss := fun h => hs (List.mem_cons_of_mem s0 h)
    simp only [fanStates]
    rw [ih _ s hs2, lookupState_appendToState_ne _ s0 hobj s hne,
      lookupState_set_default_ne t s0 s hne]

theorem lookupState_routeFanOut_not_mem (hobj : HandlerObject) :
    ∀ (routes : List (List State × String)) (t : StateTable) (s : State),
      s ∉ routeStatesOf routes →
      lookupState (routeFanOut hobj t routes) s = lookupState t s := by
  intro routes
  induction routes with
  | nil => intro t s _; rfl
  | cons r rest ih =>
    intro t s hs
    simp only [routeStatesOf, List.mem_append] at hs
    push_neg at hs
    simp only [routeFanOut]
    rw [ih _ s hs.2, lookupState_fanStates_not_mem hobj r.1 t s hs.1]

/-! ### Invariants of the registration pass -/

/-- Growth order lifted to the registration state. -/
def regGrows (a b : RegState) : Prop := tableGrows a.native_states b.native_states

theorem regGrows_refl (a : RegState) : regGrows a a := tableGrows_refl _

theorem regGrows_trans (a b c : RegState) (hab : regGrows a b) (hbc : regGrows b c) :
    regGrows a c := tableGrows_trans hab hbc

theorem processMember_grows (permissions : List String) (screen : Screen) (state : State)
    (rs : RegState) (m : Member) (rs2 : RegState)
    (h : processMember permissions screen state rs m = Except.ok rs2) :
    regGrows rs rs2 := by
  unfold processMember at h
  split at h
  · split at h
    · exact absurd h (by simp)
    · split at h
      · simp only [Except.ok.injEq] at h
        subst h
        exact tableGrows_routeFanOut _ screen.routes rs.native_states
      · simp only [Except.ok.injEq] at h
        subst h
        exact tableGrows_appendToState rs.native_states state _
  · simp only [Except.ok.injEq] at h
    subst h
    exact tableGrows_refl _

theorem processScreen_grows (permissions : List String) (state : State)
    (rs : RegState) (screen : Screen) (rs2 : RegState)
    (h : processScreen permissions state rs screen = Except.ok rs2) :
    regGrows rs rs2 :=
  runList_rel regGrows regGrows_refl regGrows_trans
    (processMember permissions screen state)
    (fun s a s2 hs => processMember_grows permissions screen state s a s2 hs)
    screen.members rs rs2 h

theorem register_handlers_grows (permissions : List String) (rs : RegState)
    (state : State) (screens : List Screen) (rs2 : RegState)
    (h : _register_handlers permissions rs state screens = Except.ok rs2) :
    regGrows rs rs2 := by
  unfold _register_handlers at h
  refine regGrows_trans rs
    { rs with native_states :=
        set_default_value_to_native_states rs.native_states state } rs2 ?_ ?_
  · exact tableGrows_set_default rs.native_states state
  · exact runList_rel regGrows regGrows_refl regGrows_trans
      (processScreen permissions state)
      (fun s a s2 hs => processScreen_grows permissions state s a s2 hs)
      screens _ rs2 h

theorem registerStates_grows (permissions : List String) (t0 : StateTable)
    (states : List (State × List Screen)) (rsF : RegState)
    (h : registerStates permissions t0 states = Except.ok rsF) :
    tableGrows t0 rsF.native_states := by
  unfold registerStates at h
  exact runList_rel regGrows regGrows_refl regGrows_trans
    (fun rs p => _register_handlers permissions rs p.1 p.2)
    (fun s a s2 hs => register_handlers_grows permissions s a.1 a.2 s2 hs)
    states _ rsF h

/-- A successful registration pass reaches every member of every screen of
every declared pair with some intermediate state, and the table only grows
afterwards. -/
theorem registration_reaches_member (permissions : List String) (t0 : StateTable)
    (states : List (State × List Screen)) (rsF : RegState)
    (h : registerStates permissions t0 states = Except.ok rsF)
    (p : State × List Screen) (hp : p ∈ states) (scr : Screen) (hscr : scr ∈ p.2)
    (m : Member) (hm : m ∈ scr.members) :
    ∃ c d : RegState, processMember permissions scr p.1 c m = Except.ok d ∧
      regGrows d rsF := by
  unfold registerStates at h
  obtain ⟨s0, s1, _, hstep, hrel1⟩ :=
    runList_ok_mem regGrows regGrows_refl regGrows_trans
      (fun rs p => _register_handlers permissions rs p.1 p.2)
      (fun s a s2 hs => register_handlers_grows permissions s a.1 a.2 s2 hs)
      states p hp _ rsF h
  unfold _register_handlers at hstep
  obtain ⟨a, b, _, hstep2, hrel2⟩ :=
    runList_ok_mem regGrows regGrows_refl regGrows_trans
      (processScreen permissions p.1)
      (fun s a s2 hs => processScreen_grows permissions p.1 s a s2 hs)
      p.2 scr hscr _ s1 hstep
  unfold processScreen at hstep2
  obtain ⟨c, d, _, hstep3, hrel3⟩ :=
    runList_ok_mem regGrows regGrows_refl regGrows_trans
      (processMember permissions scr p.1)
      (fun s a s2 hs => processMember_grows permissions scr p.1 s a s2 hs)
      scr.members m hm _ b hstep2
  exact ⟨c, d, hstep3, regGrows_trans _ _ _ hrel3 (regGrows_trans _ _ _ hrel2 hrel1)⟩

/-- After a successful registration pass, every declared state has a table
entry. -/
theorem declared_state_present (permissions : List String) (t0 : StateTable)
    (states : List (State × List Screen)) (rsF : RegState)
    (h : registerStates permissions t0 states = Except.ok rsF)
    (p : State × List Screen) (hp : p ∈ states) :
    ∃ l, lookupState rsF.native_states p.1 = some l := by
  unfold registerStates at h
  obtain ⟨s0, s1, _, hstep, hrel1⟩ :=
    runList_ok_mem regGrows regGrows_refl regGrows_trans
      (fun rs p => _register_handlers permissions rs p.1 p.2)
      (fun s a s2 hs => register_handlers_grows permissions s a.1 a.2 s2 hs)
      states p hp _ rsF h
  unfold _register_handlers at hstep
  obtain ⟨l0, hl0⟩ := lookupState_set_default_self s0.native_states p.1
  have hg : regGrows
      { s0 with native_states :=
          set_default_value_to_native_states s0.native_states p.1 } s1 :=
    runList_rel regGrows regGrows_refl regGrows_trans
      (processScreen permissions p.1)
      (fun s a s2 hs => processScreen_grows permissions p.1 s a s2 hs)
      p.2 _ s1 hstep
  obtain ⟨l2, hl2⟩ := hg p.1 l0 hl0
  obtain ⟨l3, hl3⟩ := hrel1 p.1 _ hl2
  exact ⟨_, hl3⟩

/-- A route handler reached by a successful registration pass leaves its
dispatch entry in every state of every pair of the screen's routes. -/
theorem route_member_registered (permissions : List String) (t0 : StateTable)
    (states : List (State × List Screen)) (rsF : RegState)
    (h : registerStates permissions t0 states = Except.ok rsF)
    (p : State × List Screen) (hp : p ∈ states) (scr : Screen) (hscr : scr ∈ p.2)
    (m : Member) (hm : m ∈ scr.members) (hname : m.name ∈ route_handlers)
    (hroutes : scr.routes ≠ []) (r : List State × String) (hr : r ∈ scr.routes)
    (s : State) (hs : s ∈ r.1) :
    ∃ hobj l,
      _get_handler_object m.handler m.handler.handler_type permissions = some hobj ∧
      lookupState rsF.native_states s = some l ∧ hobj ∈ l := by
  obtain ⟨c, d, hstep, hrel⟩ :=
    registration_reaches_member permissions t0 states rsF h p hp scr hscr m hm
  have hb : m.name ∈ builtin_handlers := List.mem_append_right _ hname
  unfold processMember at hstep
  rw [if_pos (Or.inl hb)] at hstep
  split at hstep
  next hgnone => exact absurd hstep (by simp)
  next hobj hgsome =>
    rw [if_pos (And.intro hname hroutes)] at hstep
    simp only [Except.ok.injEq] at hstep
    subst hstep
    obtain ⟨l, hl, hmem⟩ := routeFanOut_mem hobj scr.routes c.native_states r hr s hs
    obtain ⟨l2, hl2⟩ := hrel s l hl
    exact ⟨hobj, l ++ l2, hgsome, hl2, by simp [hmem]⟩

/-- A classified member whose `handler_type` tag is unrecognized makes the
member loop raise `UnknownHandlerType`, whatever the current state. -/
theorem processMember_other_error (permissions : List String) (screen : Screen)
    (state : State) (rs : RegState) (m : Member) (tag : String)
    (hb : m.name ∈ builtin_handlers)
    (ht : m.handler.handler_type = HandlerTypeAttr.other tag) :
    processMember permissions screen state rs m = Except.error rs := by
  unfold processMember
  rw [if_pos (Or.inl hb)]
  have hg : _get_handler_object m.handler m.handler.handler_type permissions = none := by
    rw [ht]
    unfold _get_handler_object
    simp
  rw [hg]

/-- If a screen contains a classified member with an unrecognized tag, no
initial table lets the registration pass succeed. -/
theorem bad_member_registration_fails (permissions : List String) (t0 : StateTable)
    (states : List (State × List Screen))
    (p : State × List Screen) (hp : p ∈ states) (scr : Screen) (hscr : scr ∈ p.2)
    (m : Member) (hm : m ∈ scr.members) (tag : String)
    (hb : m.name ∈ builtin_handlers)
    (ht : m.handler.handler_type = HandlerTypeAttr.other tag) :
    ∀ rsF, registerStates permissions t0 states ≠ Except.ok rsF := by
  intro rsF h
  obtain ⟨c, d, hstep, _⟩ :=
    registration_reaches_member permissions t0 states rsF h p hp scr hscr m hm
  rw [processMember_other_error permissions scr p.1 c m tag hb ht] at hstep
  exact absurd hstep (by simp)

/-- Whether one member-loop iteration raises does not depend on the current
registration state. -/
theorem processMember_error_transfer (permissions : List String) (screen : Screen)
    (state : State) (rt : RegState) (m : Member) (e : RegState)
    (h : processMember permissions screen state rt m = Except.error e)
    (rs : RegState) :
    processMember permissions screen state rs m = Except.error rs := by
  unfold processMember at h ⊢
  split at h
  next hct =>
    rw [if_pos hct]
    split at h
    next hgnone => rfl
    next hobj hgsome =>
      split at h
      · exact absurd h (by simp)
      · exact absurd h (by simp)
  next hcf => exact absurd h (by simp [hcf])

theorem processMember_ok_transfer (permissions : List String) (screen : Screen)
    (state : State) (rs : RegState) (m : Member) (rs2 : RegState)
    (h : processMember permissions screen state rs m = Except.ok rs2)
    (rt : RegState) :
    ∃ rt2, processMember permissions screen state rt m = Except.ok rt2 := by
  cases hrt : processMember permissions screen state rt m with
  | ok rt2 => exact ⟨rt2, rfl⟩
  | error e =>
    rw [processMember_error_transfer permissions screen state rt m e hrt rs] at h
    exact absurd h (by simp)

theorem processScreen_ok_transfer (permissions : List String) (state : State)
    (rs : RegState) (screen : Screen) (rs2 : RegState)
    (h : processScreen permissions state rs screen = Except.ok rs2)
    (rt : RegState) :
    ∃ rt2, processScreen permissions state rt screen = Except.ok rt2 :=
  runList_ok_transfer (processMember permissions screen state)
    (fun s a s2 hs t => processMember_ok_transfer permissions screen state s a s2 hs t)
    screen.members rs rs2 h rt

theorem register_handlers_ok_transfer (permissions : List String) (rs : RegState)
    (state : State) (screens : List Screen) (rs2 : RegState)
    (h : _register_handlers permissions rs state screens = Except.ok rs2)
    (rt : RegState) :
    ∃ rt2, _register_handlers permissions rt state screens = Except.ok rt2 := by
  unfold _register_handlers at h ⊢
  exact runList_ok_transfer (processScreen permissions state)
    (fun s a s2 hs t => processScreen_ok_transfer permissions state s a s2 hs t)
    screens _ rs2 h _

/-- Whether the registration pass succeeds does not depend on the initial
state table: a second run over the same declared states cannot fail. -/
theorem registerStates_ok_transfer (permissions : List String) (t0 : StateTable)
    (states : List (State × List Screen)) (rsF : RegState)
    (h : registerStates permissions t0 states = Except.ok rsF)
    (t1 : StateTable) :
    ∃ rs2, registerStates permissions t1 states = Except.ok rs2 := by
  unfold registerStates at h ⊢
  exact runList_ok_transfer (fun rs p => _register_handlers permissions rs p.1 p.2)
    (fun s a s2 hs t => register_handlers_ok_transfer permissions s a.1 a.2 s2 hs t)
    states _ rsF h _

/-! ### The legacy permission loop and the checksum pattern -/

theorem legacy_foldl_eq (source : RawHandler) :
    ∀ (permissions : List String) (init : Option Handler),
      permissions.foldl
        (fun wrapped class_uuid =>
          if source.permissions_ignored ≠ [] ∧ class_uuid ∈ source.permissions_ignored then
            wrapped
          else
            some (Handler.wrapped class_uuid (Handler.raw source)))
        init =
      match lastApplicable source permissions with
      | some u => some (Handler.wrapped u (Handler.raw source))
      | none => init := by
  intro permissions
  induction permissions with
  | nil => intro init; rfl
  | cons u rest ih =>
    intro init
    simp only [List.foldl_cons, lastApplicable]
    rw [ih]
    cases hla : lastApplicable source rest with
    | some v => rfl
    | none =>
      by_cases hskip : source.permissions_ignored ≠ [] ∧ u ∈ source.permissions_ignored
      · rw [if_pos hskip, if_pos hskip]
      · rw [if_neg hskip, if_neg hskip]

theorem legacy_source_wrapped_eq (permissions : List String) (source : RawHandler) :
    legacy_source_wrapped permissions source =
      match lastApplicable source permissions with
      | some u => some (Handler.wrapped u (Handler.raw source))
      | none => none :=
  legacy_foldl_eq source permissions none

theorem natToHexRev_length : ∀ (w n : Nat), (natToHexRev w n).length = w := by
  intro w
  induction w with
  | zero => intro n; rfl
  | succ w ih => intro n; simp [natToHexRev, ih]

theorem calc_checksum_length (h : RawHandler) :
    (calc_checksum h).length = CHECKSUM_LEN := by
  have h1 : (calc_checksum h).length =
      (natToHexRev CHECKSUM_LEN (hashChars h.qualname.data 0)).length := rfl
  rw [h1, natToHexRev_length]

theorem string_length_data (s : String) : s.data.length = s.length := by
  cases s
  rfl

theorem string_data_append (s t : String) : (s ++ t).data = s.data ++ t.data := by
  cases s
  cases t
  rfl

theorem isPrefixOf_append_self : ∀ (c rest : List Char), c.isPrefixOf (c ++ rest) = true := by
  intro c
  induction c with
  | nil => intro rest; simp [List.isPrefixOf]
  | cons x xs ih =>
    intro rest
    simp only [List.cons_append, List.isPrefixOf, Bool.and_eq_true, beq_self_eq_true,
      true_and]
    exact ih rest

theorem isPrefixOf_eq_of_length : ∀ (c i rest : List Char), c.length = i.length →
    c.isPrefixOf (i ++ rest) = true → c = i := by
  intro c
  induction c with
  | nil =>
    intro i rest hlen _
    exact (List.eq_nil_of_length_eq_zero hlen.symm).symm
  | cons x xs ih =>
    intro i rest hlen hp
    cases i with
    | nil => simp at hlen
    | cons y ys =>
      simp only [List.cons_append, List.isPrefixOf, Bool.and_eq_true, beq_iff_eq] at hp
      have hlen2 : xs.length = ys.length := by
        simp only [List.length_cons] at hlen
        omega
      obtain ⟨rfl, hp2⟩ := hp
      rw [ih ys rest hlen2 hp2]

theorem isPrefixOf_iff_eq_of_length (c i rest : List Char) (hlen : c.length = i.length) :
    c.isPrefixOf (i ++ rest) = true ↔ c = i := by
  constructor
  · exact isPrefixOf_eq_of_length c i rest hlen
  · intro h
    subst h
    exact isPrefixOf_append_self c rest

theorem isPrefixOf_delim_iff_eq_of_length (c i d a : List Char)
    (hlen : c.length = i.length) :
    (c ++ d).isPrefixOf (i ++ d ++ a) = true ↔ c = i := by
  constructor
  · intro hp
    have hlen2 : (c ++ d).length = (i ++ d).length := by simp [hlen]
    have h2 := isPrefixOf_eq_of_length (c ++ d) (i ++ d) a hlen2 hp
    have h3 := List.append_inj h2 (by simp [hlen])
    exact h3.1
  · intro h
    subst h
    exact isPrefixOf_append_self (c ++ d) a

/-! ### The claims -/

theorem string_data_injective (s t : String) (h : s.data = t.data) : s = t := by
  cases s
  cases t
  exact congrArg String.mk h

/-- Claim C1: for a screen member classified as a button handler
(`handler_type` BUTTON or unset), the registered dispatch entry's matching
rule is the regex anchored on `calc_checksum handler`, and on a well-formed
incoming callback payload `identifier ++ PAYLOAD_DELIMITER ++ args` (with the
identifier of the fixed checksum length) it fires exactly when the payload
starts with `calc_checksum handler ++ PAYLOAD_DELIMITER` — equivalently,
exactly when the payload's identifier is the handler's checksum — and on no
such payload lacking that prefix. -/
theorem C1_button_pattern (handler : RawHandler) (handler_type : HandlerTypeAttr)
    (permissions : List String)
    (htag : handler_type = HandlerTypeAttr.known HandlerType.BUTTON_HANDLER ∨
      handler_type = HandlerTypeAttr.unset)
    (hobj : HandlerObject)
    (hget : _get_handler_object handler handler_type permissions = some hobj)
    (id args : String) (hid : id.length = CHECKSUM_LEN) :
    (firesOnCallback hobj (id ++ PAYLOAD_DELIMITER ++ args) = true ↔
      (calc_checksum handler ++ PAYLOAD_DELIMITER).data.isPrefixOf
        (id ++ PAYLOAD_DELIMITER ++ args).data = true) ∧
    (firesOnCallback hobj (id ++ PAYLOAD_DELIMITER ++ args) = true ↔
      id = calc_checksum handler) := by
  have hobj_eq : hobj = HandlerObject.callbackQuery
      (apply_permission_to permissions handler) (calc_checksum handler) := by
    unfold _get_handler_object at hget
    rw [if_pos htag] at hget
    simp only [Option.some.injEq] at hget
    exact hget.symm
  subst hobj_eq
  have hlen : (calc_checksum handler).data.length = id.data.length := by
    rw [string_length_data, string_length_data, hid, calc_checksum_length]
  have hfire : firesOnCallback
      (HandlerObject.callbackQuery (apply_permission_to permissions handler)
        (calc_checksum handler))
      (id ++ PAYLOAD_DELIMITER ++ args) =
      (calc_checksum handler).data.isPrefixOf (id ++ PAYLOAD_DELIMITER ++ args).data := rfl
  have hdata : (id ++ PAYLOAD_DELIMITER ++ args).data =
      id.data ++ PAYLOAD_DELIMITER.data ++ args.data := by
    rw [string_data_append, string_data_append]
  have hiff1 : (calc_checksum handler).data.isPrefixOf
      (id ++ PAYLOAD_DELIMITER ++ args).data = true ↔
      (calc_checksum handler).data = id.data := by
    rw [hdata, List.append_assoc]
    exact isPrefixOf_iff_eq_of_length _ _ _ hlen
  have hiff2 : (calc_checksum handler ++ PAYLOAD_DELIMITER).data.isPrefixOf
      (id ++ PAYLOAD_DELIMITER ++ args).data = true ↔
      (calc_checksum handler).data = id.data := by
    rw [hdata, string_data_append]
    exact isPrefixOf_delim_iff_eq_of_length _ _ _ _ hlen
  have hiff3 : (calc_checksum handler).data = id.data ↔ id = calc_checksum handler := by
    constructor
    · intro h2
      exact (string_data_injective _ _ h2).symm
    · intro h2
      rw [h2]
  constructor
  · rw [hfire, hiff1, hiff2]
  · rw [hfire, hiff1, hiff3]

/-- A concrete button member used to instantiate claim C1. -/
def c1handler : RawHandler :=
  ⟨"demo.MainScreen.buy", HandlerTypeAttr.known HandlerType.BUTTON_HANDLER, "",
    MsgFilter.custom "unset", []⟩

/-- The dispatch entry built for `c1handler` with no configured policies. -/
def c1entry : HandlerObject :=
  HandlerObject.callbackQuery (apply_permission_to [] c1handler) (calc_checksum c1handler)

/-- Witness for claim C1 at a concrete button member and payload. -/
theorem C1_button_pattern_witness :
    (calc_checksum c1handler).length = CHECKSUM_LEN ∧
    ((firesOnCallback c1entry (calc_checksum c1handler ++ PAYLOAD_DELIMITER ++ "7") = true ↔
      (calc_checksum c1handler ++ PAYLOAD_DELIMITER).data.isPrefixOf
        (calc_checksum c1handler ++ PAYLOAD_DELIMITER ++ "7").data = true) ∧
     (firesOnCallback c1entry (calc_checksum c1handler ++ PAYLOAD_DELIMITER ++ "7") = true ↔
      calc_checksum c1handler = calc_checksum c1handler)) :=
  ⟨calc_checksum_length c1handler,
   C1_button_pattern c1handler (HandlerTypeAttr.known HandlerType.BUTTON_HANDLER) []
     (Or.inl rfl) c1entry (by decide) (calc_checksum c1handler) "7"
     (calc_checksum_length c1handler)⟩

/-- A concrete source member used to instantiate claim C2. -/
def c2source : RawHandler :=
  ⟨"demo.MainScreen.handle_purchase", HandlerTypeAttr.unset, "",
    MsgFilter.custom "unset", []⟩

/-- Counterexample to claim C2: with two configured policies P then Q, neither
ignored by the source, the legacy permission loop registers Q's wrap of the
RAW source — P's check is silently discarded — which differs from the fold of
the policies over the handler that the claim states. -/
theorem C2_composition_counterexample :
    legacy_registered ["P", "Q"] c2source =
      Handler.wrapped "Q" (Handler.raw c2source) ∧
    apply_permission_to ["P", "Q"] c2source =
      Handler.wrapped "Q" (Handler.wrapped "P" (Handler.raw c2source)) ∧
    legacy_registered ["P", "Q"] c2source ≠ apply_permission_to ["P", "Q"] c2source :=
  ⟨by decide, by decide, by decide⟩

/-- Claim C2 as amended: each policy of the legacy loop that is not skipped
wraps the RAW source and overwrites the previously stored wrap, so the
registered handler is `check_permission` of the LAST applicable configured
policy applied to the raw handler — not the fold — and the raw handler when
no policy applies; a policy whose `CLASS_UUID` is in the source's non-empty
`permissions_ignored` is skipped. -/
theorem C2_last_policy_wins (permissions : List String) (source : RawHandler) :
    legacy_registered permissions source =
      match lastApplicable source permissions with
      | some u => Handler.wrapped u (Handler.raw source)
      | none => Handler.raw source := by
  unfold legacy_registered
  rw [legacy_source_wrapped_eq]
  cases lastApplicable source permissions with
  | some u => rfl
  | none => rfl

/-- Claim C3: after a successful registration pass, every declared state and
every state referenced by the routes of a reachable route handler has a state
table entry (never an absent key); ensuring an entry is idempotent and never
alters the bindings already present. -/
theorem C3_state_table_entries (permissions : List String) (t0 : StateTable)
    (states : List (State × List Screen)) (rsF : RegState)
    (h : registerStates permissions t0 states = Except.ok rsF) :
    (∀ p ∈ states, lookupState rsF.native_states p.1 ≠ none) ∧
    (∀ p ∈ states, ∀ scr ∈ p.2, ∀ m ∈ scr.members, m.name ∈ route_handlers →
      scr.routes ≠ [] → ∀ r ∈ scr.routes, ∀ s ∈ r.1,
        lookupState rsF.native_states s ≠ none) ∧
    (∀ (t : StateTable) (s : State),
      set_default_value_to_native_states (set_default_value_to_native_states t s) s =
        set_default_value_to_native_states t s) ∧
    (∀ (t : StateTable) (s s2 : State) (l : List HandlerObject),
      lookupState t s2 = some l →
        lookupState (set_default_value_to_native_states t s) s2 = some l) := by
  refine ⟨?_, ?_, ?_, ?_⟩
  · intro p hp
    obtain ⟨l, hl⟩ := declared_state_present permissions t0 states rsF h p hp
    rw [hl]
    simp
  · intro p hp scr hscr m hm hname hroutes r hr s hs
    obtain ⟨hobj, l, _, hl, _⟩ :=
      route_member_registered permissions t0 states rsF h p hp scr hscr m hm
        hname hroutes r hr s hs
    rw [hl]
    simp
  · intro t s
    obtain ⟨l, hl⟩ := lookupState_set_default_self t s
    exact set_default_of_some _ s l hl
  · intro t s s2 l hl
    exact lookupState_set_default_of_some t s s2 l hl

/-- A concrete builtin-named button member used to instantiate claim C3. -/
def c3handler : RawHandler :=
  ⟨"demo.HomeScreen.goto", HandlerTypeAttr.unset, "", MsgFilter.custom "unset", []⟩

/-- A concrete screen with a single `goto` member and no routes. -/
def c3screen : Screen := ⟨[⟨"goto", c3handler⟩], []⟩

/-- A concrete declared-states mapping with one state and one screen. -/
def c3states : List (State × List Screen) := [(1, [c3screen])]

/-- The registration result for `c3states` from an empty table. -/
def c3result : RegState :=
  ⟨[(1, [HandlerObject.callbackQuery (Handler.raw c3handler) (calc_checksum c3handler)])], []⟩

/-- Witness for claim C3 at a concrete declared state. -/
theorem C3_state_table_entries_witness :
    registerStates [] [] c3states = Except.ok c3result ∧
    lookupState c3result.native_states 1 ≠ none :=
  ⟨by decide,
   (C3_state_table_entries [] [] c3states c3result (by decide)).1
     (1, [c3screen]) (by decide)⟩

/-- Claim C4: a route handler (member named sgoto or sjump) of a screen with a
non-empty routes list has its dispatch entry inserted, by a successful
registration pass, into the handler list of every state of every
`(route_states, target)` pair of the routes. -/
theorem C4_route_fanout (permissions : List String) (t0 : StateTable)
    (states : List (State × List Screen)) (rsF : RegState)
    (h : registerStates permissions t0 states = Except.ok rsF)
    (p : State × List Screen) (hp : p ∈ states) (scr : Screen) (hscr : scr ∈ p.2)
    (m : Member) (hm : m ∈ scr.members) (hname : m.name ∈ route_handlers)
    (hroutes : scr.routes ≠ []) (hobj : HandlerObject)
    (hget : _get_handler_object m.handler m.handler.handler_type permissions = some hobj)
    (r : List State × String) (hr : r ∈ scr.routes) (s : State) (hs : s ∈ r.1) :
    ∃ l, lookupState rsF.native_states s = some l ∧ hobj ∈ l := by
  obtain ⟨hobj2, l, hget2, hl, hmem⟩ :=
    route_member_registered permissions t0 states rsF h p hp scr hscr m hm
      hname hroutes r hr s hs
  rw [hget] at hget2
  simp only [Option.some.injEq] at hget2
  subst hget2
  exact ⟨l, hl, hmem⟩

/-- A concrete route-handler member used to instantiate claim C4. -/
def c4handler : RawHandler :=
  ⟨"demo.RouteScreen.sgoto", HandlerTypeAttr.unset, "", MsgFilter.custom "unset", []⟩

/-- A concrete screen whose `sgoto` member fans out to states 2 and 3. -/
def c4screen : Screen := ⟨[⟨"sgoto", c4handler⟩], [([2, 3], "TargetScreen")]⟩

/-- A concrete declared-states mapping for claim C4. -/
def c4states : List (State × List Screen) := [(1, [c4screen])]

/-- The dispatch entry built for `c4handler` with no configured policies. -/
def c4entry : HandlerObject :=
  HandlerObject.callbackQuery (Handler.raw c4handler) (calc_checksum c4handler)

/-- The registration result for `c4states` from an empty table. -/
def c4result : RegState := ⟨[(1, []), (2, [c4entry]), (3, [c4entry])], []⟩

/-- Witness for claim C4: the fanned-out entry is present at route state 3. -/
theorem C4_route_fanout_witness :
    registerStates [] [] c4states = Except.ok c4result ∧
    (∃ l, lookupState c4result.native_states 3 = some l ∧ c4entry ∈ l) :=
  ⟨by decide,
   C4_route_fanout [] [] c4states c4result (by decide) (1, [c4screen]) (by decide)
     c4screen (by decide) ⟨"sgoto", c4handler⟩ (by decide) (by decide) (by decide)
     c4entry (by decide) ([2, 3], "TargetScreen") (by decide) 3 (by decide)⟩

/-- A concrete valid button member enumerated before the broken one. -/
def c5good : RawHandler :=
  ⟨"demo.BrokenScreen.apple", HandlerTypeAttr.known HandlerType.BUTTON_HANDLER, "",
    MsgFilter.custom "unset", []⟩

/-- A concrete classified member carrying an unrecognized handler_type tag. -/
def c5bad : RawHandler :=
  ⟨"demo.BrokenScreen.start", HandlerTypeAttr.other "BOGUS", "",
    MsgFilter.custom "unset", []⟩

/-- A concrete screen whose members enumerate the valid one first. -/
def c5screen : Screen := ⟨[⟨"apple", c5good⟩, ⟨"start", c5bad⟩], []⟩

/-- A concrete declared-states mapping for claim C5. -/
def c5states : List (State × List Screen) := [(1, [c5screen])]

/-- The dispatch entry the valid member registers before the raise. -/
def c5entry : HandlerObject :=
  HandlerObject.callbackQuery (apply_permission_to [] c5good) (calc_checksum c5good)

/-- The registration state at the moment `UnknownHandlerType` is raised. -/
def c5errstate : RegState := ⟨[(1, [c5entry])], []⟩

/-- Counterexample to claim C5: a screen with a valid button member enumerated
before a member carrying an unrecognized tag makes registration raise
`UnknownHandlerType`, but at the moment of the raise the state table already
holds the earlier member's dispatch entry for that screen — the in-place
mutation is not rolled back, refuting the zero-partial-mutation half of the
claim. -/
theorem C5_partial_mutation_counterexample :
    registerStates [] [] c5states = Except.error c5errstate ∧
    lookupState c5errstate.native_states 1 = some [c5entry] :=
  ⟨by decide, by decide⟩

/-- Claim C5 as amended: a screen member that is classified for registration
yet carries an unrecognized `handler_type` tag makes the registration pass
fail with the `UnknownHandlerType` configuration error (it never returns a
table); the failure is not all-or-nothing, though — dispatch entries appended
for members processed earlier in the pass remain in the in-place-mutated
table, as the counterexample records. -/
theorem C5_unknown_type_fails (permissions : List String) (t0 : StateTable)
    (states : List (State × List Screen))
    (p : State × List Screen) (hp : p ∈ states) (scr : Screen) (hscr : scr ∈ p.2)
    (m : Member) (hm : m ∈ scr.members) (tag : String)
    (hb : m.name ∈ builtin_handlers)
    (ht : m.handler.handler_type = HandlerTypeAttr.other tag) :
    (∀ rsF, registerStates permissions t0 states ≠ Except.ok rsF) ∧
    (∃ e, registerStates permissions t0 states = Except.error e) := by
  have hfail :=
    bad_member_registration_fails permissions t0 states p hp scr hscr m hm tag hb ht
  refine ⟨hfail, ?_⟩
  cases hres : registerStates permissions t0 states with
  | error e => exact ⟨e, rfl⟩
  | ok rsF => exact absurd hres (hfail rsF)

/-- Witness for the amended claim C5 at the concrete broken screen. -/
theorem C5_unknown_type_fails_witness :
    (∀ rsF, registerStates [] [] c5states ≠ Except.ok rsF) ∧
    (∃ e, registerStates [] [] c5states = Except.error e) :=
  C5_unknown_type_fails [] [] c5states (1, [c5screen]) (by decide) c5screen (by decide)
    ⟨"start", c5bad⟩ (by decide) "BOGUS" (by decide) (by decide)

/-- A concrete COMMAND member used to instantiate claim C6. -/
def c6handler : RawHandler :=
  ⟨"demo.HelpScreen.help_command", HandlerTypeAttr.known HandlerType.COMMAND_HANDLER,
    "help", MsgFilter.custom "unset", []⟩

/-- Counterexample to claim C6: with one configured policy, the dispatch entry
built for a COMMAND member invokes the raw member callable, which differs
from the permission-wrapped handler the claim requires. -/
theorem C6_raw_callback_counterexample :
    Option.map registeredCallback
      (_get_handler_object c6handler c6handler.handler_type ["P"]) =
      some (Handler.raw c6handler) ∧
    apply_permission_to ["P"] c6handler =
      Handler.wrapped "P" (Handler.raw c6handler) ∧
    Handler.raw c6handler ≠ Handler.wrapped "P" (Handler.raw c6handler) :=
  ⟨by decide, by decide, by decide⟩

/-- Claim C6 as amended: only button-type members (`handler_type` BUTTON or
unset) are registered with the permission-wrapped handler; the dispatch
entries of COMMAND, INPUT and TYPING members invoke the raw member callable. -/
theorem C6_only_buttons_wrapped (handler : RawHandler) (permissions : List String) :
    Option.map registeredCallback
      (_get_handler_object handler
        (HandlerTypeAttr.known HandlerType.BUTTON_HANDLER) permissions) =
      some (apply_permission_to permissions handler) ∧
    Option.map registeredCallback
      (_get_handler_object handler HandlerTypeAttr.unset permissions) =
      some (apply_permission_to permissions handler) ∧
    Option.map registeredCallback
      (_get_handler_object handler
        (HandlerTypeAttr.known HandlerType.COMMAND_HANDLER) permissions) =
      some (Handler.raw handler) ∧
    Option.map registeredCallback
      (_get_handler_object handler
        (HandlerTypeAttr.known HandlerType.INPUT_HANDLER) permissions) =
      some (Handler.raw handler) ∧
    Option.map registeredCallback
      (_get_handler_object handler
        (HandlerTypeAttr.known HandlerType.TYPING_HANDLER) permissions) =
      some (Handler.raw handler) :=
  ⟨rfl, rfl, rfl, rfl, rfl⟩

/-- A concrete COMMAND member with command name "help". -/
def c7handler : RawHandler :=
  ⟨"demo.HelpScreen.on_help", HandlerTypeAttr.known HandlerType.COMMAND_HANDLER,
    "help", MsgFilter.custom "unset", []⟩

/-- The matching rule the engine builds for `c7handler`. -/
def c7filter : MsgFilter :=
  MsgFilter.fand MsgFilter.COMMAND (MsgFilter.regexCaret "/help")

/-- Counterexample to claim C7: the COMMAND matching rule built for
command_name "help" accepts the inbound command message "/helpme" — the regex
anchors only the prefix "/help", so a command whose name merely extends it is
not rejected. -/
theorem C7_boundary_counterexample :
    _get_handler_object c7handler c7handler.handler_type [] =
      some (HandlerObject.message c7filter (Handler.raw c7handler)) ∧
    MsgFilter.accepts c7filter ⟨"/helpme", true⟩ = true :=
  ⟨by decide, by decide⟩

/-- Claim C7 as amended: the matching rule built for a COMMAND member with
command_name "help" accepts exactly the command messages whose text starts
with "/help": it accepts "/help", but also accepts "/helpme" (prefix-only
anchoring, no exact-name boundary), while rejecting command messages that do
not start with "/help". -/
theorem C7_prefix_matching (qualname : String) (flt : MsgFilter)
    (ignored : List String) (permissions : List String) :
    _get_handler_object
        ⟨qualname, HandlerTypeAttr.known HandlerType.COMMAND_HANDLER, "help",
          flt, ignored⟩
        (HandlerTypeAttr.known HandlerType.COMMAND_HANDLER) permissions =
      some (HandlerObject.message c7filter
        (Handler.raw ⟨qualname, HandlerTypeAttr.known HandlerType.COMMAND_HANDLER,
          "help", flt, ignored⟩)) ∧
    (∀ m : Message, MsgFilter.accepts c7filter m =
      (m.is_command && "/help".data.isPrefixOf m.text.data)) ∧
    MsgFilter.accepts c7filter ⟨"/help", true⟩ = true ∧
    MsgFilter.accepts c7filter ⟨"/helpme", true⟩ = true ∧
    MsgFilter.accepts c7filter ⟨"/version", true⟩ = false ∧
    MsgFilter.accepts c7filter ⟨"/help", false⟩ = false :=
  ⟨rfl, fun m => rfl, by decide, by decide, by decide, by decide⟩

/-- A concrete builtin-named button member used to instantiate claim C8. -/
def c8handler : RawHandler :=
  ⟨"demo.ShopScreen.jump", HandlerTypeAttr.unset, "", MsgFilter.custom "unset", []⟩

/-- A concrete screen with one `jump` member and no routes. -/
def c8screen : Screen := ⟨[⟨"jump", c8handler⟩], []⟩

/-- A concrete declared-states mapping for claim C8. -/
def c8states : List (State × List Screen) := [(7, [c8screen])]

/-- The dispatch entry registered for `c8handler`. -/
def c8entry : HandlerObject :=
  HandlerObject.callbackQuery (Handler.raw c8handler) (calc_checksum c8handler)

/-- The table after one registration run from an empty table. -/
def c8run1 : RegState := ⟨[(7, [c8entry])], []⟩

/-- The table after a second identical run over the first run's table. -/
def c8run2 : RegState := ⟨[(7, [c8entry, c8entry])], []⟩

/-- Counterexample to claim C8: running the registration pass twice with
identical inputs neither fails nor reproduces the single-run table — the
second run succeeds and registers the same entry again, so state 7's list
holds the entry twice. -/
theorem C8_double_registration_counterexample :
    registerStates [] [] c8states = Except.ok c8run1 ∧
    registerStates [] c8run1.native_states c8states = Except.ok c8run2 ∧
    c8run2.native_states ≠ c8run1.native_states :=
  ⟨by decide, by decide, by decide⟩

/-- Claim C8 as amended: a second identical registration run never fails and
never deduplicates: whenever the first run succeeds, the second run succeeds
too, and every list of the first run's table persists as a prefix of the
corresponding list of the second run's table, which accumulates the pass's
entries again (as the counterexample records for the one-button screen). -/
theorem C8_second_run_accumulates (permissions : List String) (t0 : StateTable)
    (states : List (State × List Screen)) (rs1 : RegState)
    (h1 : registerStates permissions t0 states = Except.ok rs1) :
    ∃ rs2, registerStates permissions rs1.native_states states = Except.ok rs2 ∧
      tableGrows rs1.native_states rs2.native_states := by
  obtain ⟨rs2, h2⟩ :=
    registerStates_ok_transfer permissions t0 states rs1 h1 rs1.native_states
  exact ⟨rs2, h2, registerStates_grows permissions rs1.native_states states rs2 h2⟩

/-- Witness for the amended claim C8 at the concrete one-button input. -/
theorem C8_second_run_accumulates_witness :
    ∃ rs2, registerStates [] c8run1.native_states c8states = Except.ok rs2 ∧
      tableGrows c8run1.native_states rs2.native_states :=
  C8_second_run_accumulates [] [] c8states c8run1 (by decide)

/-- Claim C9: a screen member that is neither a reserved action name nor
tagged with a recognized handler type is reported to the unregistered-handler
diagnostic, leaves the state table untouched, and the loop continues without
raising. -/
theorem C9_unregistered_logged (permissions : List String) (screen : Screen)
    (state : State) (rs : RegState) (m : Member)
    (hname : m.name ∉ builtin_handlers)
    (htag : isAcceptable m.handler.handler_type = false) :
    processMember permissions screen state rs m =
      Except.ok ⟨rs.native_states, rs.unregistered_log ++ [m.handler]⟩ := by
  have hc : ¬(m.name ∈ builtin_handlers ∨ isAcceptable m.handler.handler_type = true) := by
    rintro (h1 | h2)
    · exact hname h1
    · rw [htag] at h2
      exact absurd h2 (by simp)
  unfold processMember
  rw [if_neg hc]

/-- A concrete helper-method member that is not a handler. -/
def c9handler : RawHandler :=
  ⟨"demo.MainScreen.render_caption", HandlerTypeAttr.unset, "",
    MsgFilter.custom "unset", []⟩

/-- Witness for claim C9 at a concrete helper member. -/
theorem C9_unregistered_logged_witness :
    processMember [] ⟨[], []⟩ 1 ⟨[], []⟩ ⟨"render_caption", c9handler⟩ =
      Except.ok ⟨[], [c9handler]⟩ :=
  C9_unregistered_logged [] ⟨[], []⟩ 1 ⟨[], []⟩ ⟨"render_caption", c9handler⟩
    (by decide) (by decide)

/-- A route-handler member of a screen with non-empty routes is processed by
fanning out over the routes, leaving the rest of the registration state
unchanged. -/
theorem processMember_route_eq (permissions : List String) (screen : Screen)
    (state : State) (rs : RegState) (m : Member) (hobj : HandlerObject)
    (hname : m.name ∈ route_handlers)
    (hget : _get_handler_object m.handler m.handler.handler_type permissions = some hobj)
    (hroutes : screen.routes ≠ []) :
    processMember permissions screen state rs m =
      Except.ok ⟨routeFanOut hobj rs.native_states screen.routes, rs.unregistered_log⟩ := by
  have hb : m.name ∈ builtin_handlers := List.mem_append_right _ hname
  unfold processMember
  rw [if_pos (Or.inl hb), hget]
  show (if m.name ∈ route_handlers ∧ screen.routes ≠ [] then
      Except.ok { rs with
        native_states := routeFanOut hobj rs.native_states screen.routes }
    else
      Except.ok { rs with
        native_states := appendToState rs.native_states state hobj }) = _
  rw [if_pos (And.intro hname hroutes)]

/-- A route-handler member of a screen with empty routes is appended to the
declaring state instead. -/
theorem processMember_noroute_eq (permissions : List String) (screen : Screen)
    (state : State) (rs : RegState) (m : Member) (hobj : HandlerObject)
    (hname : m.name ∈ route_handlers)
    (hget : _get_handler_object m.handler m.handler.handler_type permissions = some hobj)
    (hroutes : screen.routes = []) :
    processMember permissions screen state rs m =
      Except.ok ⟨appendToState rs.native_states state hobj, rs.unregistered_log⟩ := by
  have hb : m.name ∈ builtin_handlers := List.mem_append_right _ hname
  unfold processMember
  rw [if_pos (Or.inl hb), hget]
  show (if m.name ∈ route_handlers ∧ screen.routes ≠ [] then
      Except.ok { rs with
        native_states := routeFanOut hobj rs.native_states screen.routes }
    else
      Except.ok { rs with
        native_states := appendToState rs.native_states state hobj }) = _
  rw [if_neg (fun hc => hc.2 hroutes)]

/-- Claim C10: route fan-out is exclusive.  For a member named sgoto or sjump,
when the screen's routes list is non-empty the member's dispatch entry is
appended only to the states listed in the routes — every state not mentioned
there, the declaring state included, keeps its list unchanged, while every
route state receives the entry; when the routes list is empty the entry is
appended to the declaring state instead and every other state's list is
unchanged. -/
theorem C10_route_exclusivity (permissions : List String) (screen : Screen)
    (state : State) (rs : RegState) (m : Member) (hobj : HandlerObject)
    (hname : m.name ∈ route_handlers)
    (hget : _get_handler_object m.handler m.handler.handler_type permissions = some hobj) :
    (screen.routes ≠ [] →
      processMember permissions screen state rs m =
        Except.ok ⟨routeFanOut hobj rs.native_states screen.routes,
          rs.unregistered_log⟩ ∧
      (∀ s, s ∉ routeStatesOf screen.routes →
        lookupState (routeFanOut hobj rs.native_states screen.routes) s =
          lookupState rs.native_states s) ∧
      (∀ r ∈ screen.routes, ∀ s ∈ r.1,
        ∃ l, lookupState (routeFanOut hobj rs.native_states screen.routes) s =
          some l ∧ hobj ∈ l)) ∧
    (screen.routes = [] →
      processMember permissions screen state rs m =
        Except.ok ⟨appendToState rs.native_states state hobj, rs.unregistered_log⟩ ∧
      (∀ l, lookupState rs.native_states state = some l →
        lookupState (appendToState rs.native_states state hobj) state =
          some (l ++ [hobj])) ∧
      (∀ s, s ≠ state →
        lookupState (appendToState rs.native_states state hobj) s =
          lookupState rs.native_states s)) := by
  constructor
  · intro hroutes
    refine ⟨processMember_route_eq permissions screen state rs m hobj hname hget hroutes,
      ?_, ?_⟩
    · intro s hs
      exact lookupState_routeFanOut_not_mem hobj screen.routes rs.native_states s hs
    · intro r hr s hs
      exact routeFanOut_mem hobj screen.routes rs.native_states r hr s hs
  · intro hroutes
    refine ⟨processMember_noroute_eq permissions screen state rs m hobj hname hget hroutes,
      ?_, ?_⟩
    · intro l hl
      exact lookupState_appendToState_self rs.native_states state hobj l hl
    · intro s hs
      exact lookupState_appendToState_ne rs.native_states state hobj s hs

/-- Witness for claim C10 at the concrete route screen of claim C4. -/
theorem C10_route_exclusivity_witness :
    ((⟨[⟨"sgoto", c4handler⟩], [([2, 3], "TargetScreen")]⟩ : Screen).routes ≠ [] →
      processMember [] c4screen 1 ⟨[(1, [])], []⟩ ⟨"sgoto", c4handler⟩ =
        Except.ok ⟨routeFanOut c4entry [(1, [])] c4screen.routes, []⟩ ∧
      (∀ s, s ∉ routeStatesOf c4screen.routes →
        lookupState (routeFanOut c4entry [(1, [])] c4screen.routes) s =
          lookupState [(1, [])] s) ∧
      (∀ r ∈ c4screen.routes, ∀ s ∈ r.1,
        ∃ l, lookupState (routeFanOut c4entry [(1, [])] c4screen.routes) s =
          some l ∧ c4entry ∈ l)) ∧
    (c4screen.routes = [] →
      processMember [] c4screen 1 ⟨[(1, [])], []⟩ ⟨"sgoto", c4handler⟩ =
        Except.ok ⟨appendToState [(1, [])] 1 c4entry, []⟩ ∧
      (∀ l, lookupState [(1, [])] 1 = some l →
        lookupState (appendToState [(1, [])] 1 c4entry) 1 = some (l ++ [c4entry])) ∧
      (∀ s, s ≠ 1 →
        lookupState (appendToState [(1, [])] 1 c4entry) s = lookupState [(1, [])] s)) :=
  C10_route_exclusivity [] c4screen 1 ⟨[(1, [])], []⟩ ⟨"sgoto", c4handler⟩ c4entry
    (by decide) (by decide)
